import Mathlib

/-!
Shallow embedding of the SonicWave Visualizer core (src/audioEngine.ts,
src/unnamed/part_002 WaveformVisualizer, src/unnamed/part_003 RawMonitor,
src/App.tsx formatTime), with theorems settling the spec claims.

Node and context identities are modelled as natural numbers drawn from a
single fresh-allocation counter; a context's destination node shares the
context's identifier (each AudioContext owns exactly one destination).
-/

namespace SonicWave

/-- Lifecycle state of an AudioContext (the `state` attribute). -/
inductive CtxLife
  | suspended
  | running
  | closed
deriving DecidableEq, Repr

/-- A Signal Source handed to getOrCreateSourceNode: a MediaStream or an
HTMLMediaElement, each identified by a numeric identity. -/
inductive MediaSource
  | stream (sid : Nat)
  | element (eid : Nat)
deriving DecidableEq, Repr

/-- State of the AudioEngine singleton (src/audioEngine.ts) together with
the audio graph it manipulates.  `context` is the cached AudioContext with
its lifecycle state; `sourceNodes` is the Map from media-element identity
to its cached MediaElementAudioSourceNode; `graph` is the set of directed
connections between nodes; `nextId` is the fresh-identity counter (every
identifier ever issued is below it). -/
structure EngineState where
  context : Option (Nat × CtxLife)
  sourceNodes : List (Nat × Nat)
  graph : List (Nat × Nat)
  nextId : Nat
deriving DecidableEq, Repr

/-- Lookup in the element-to-node Map (Map.prototype.get). -/
def lookupNode : List (Nat × Nat) → Nat → Option Nat
  | [], _ => none
  | (k, v) :: rest, e => if k = e then some v else lookupNode rest e

/-- AudioEngine.getContext (src/audioEngine.ts lines 14-19): if no context
exists or the prior one is closed, construct a new one (which throws when
the platform lacks support, modelled by `ok = false` propagating as
Except.error); otherwise return the cached context unchanged.  A freshly
constructed context starts suspended (autoplay policy). -/
def getContext (ok : Bool) (s : EngineState) : Except Unit (Nat × EngineState) :=
  match s.context with
  | some (c, life) =>
      if life = CtxLife.closed then
        if ok then
          Except.ok (s.nextId,
            { s with context := some (s.nextId, CtxLife.suspended), nextId := s.nextId + 1 })
        else Except.error ()
      else Except.ok (c, s)
  | none =>
      if ok then
        Except.ok (s.nextId,
          { s with context := some (s.nextId, CtxLife.suspended), nextId := s.nextId + 1 })
      else Except.error ()

/-- AudioEngine.getOrCreateSourceNode (src/audioEngine.ts lines 21-41).
For a MediaStream, always constructs a fresh MediaStreamAudioSourceNode.
For an HTMLMediaElement, returns the cached node when present; otherwise
constructs one, connects it to the context destination (node id = context
id in this embedding) and caches it. -/
def getOrCreateSourceNode (ok : Bool) (src : MediaSource) (s : EngineState) :
    Except Unit (Nat × EngineState) :=
  match getContext ok s with
  | Except.error e => Except.error e
  | Except.ok (ctx, s1) =>
    match src with
    | MediaSource.stream _ =>
        Except.ok (s1.nextId, { s1 with nextId := s1.nextId + 1 })
    | MediaSource.element e =>
        match lookupNode s1.sourceNodes e with
        | some n => Except.ok (n, s1)
        | none =>
            Except.ok (s1.nextId,
              { s1 with
                  nextId := s1.nextId + 1,
                  graph := (s1.nextId, ctx) :: s1.graph,
                  sourceNodes := (e, s1.nextId) :: s1.sourceNodes })

/-- The condition under which AudioEngine.resume issues a resumption
request (src/audioEngine.ts lines 43-47): a context exists and its state
is suspended. -/
def resumeRequest (s : EngineState) : Bool :=
  match s.context with
  | some (_, CtxLife.suspended) => true
  | _ => false

/-- AudioEngine.resume (src/audioEngine.ts lines 43-47): when the context
is suspended, request resumption (`ok` tells whether the platform grants
it; a rejection surfaces as Except.error to the caller); otherwise a
no-op. -/
def engineResume (ok : Bool) (s : EngineState) : Except Unit EngineState :=
  match s.context with
  | some (c, CtxLife.suspended) =>
      if ok then Except.ok { s with context := some (c, CtxLife.running) }
      else Except.error ()
  | _ => Except.ok s

/-- The render loop's per-tick resume call (src/unnamed/part_002 line 88):
`audioEngine.resume()` followed by a catch handler that discards any
rejection, leaving the engine state as it was. -/
def tickResume (ok : Bool) (s : EngineState) : EngineState :=
  match engineResume ok s with
  | Except.ok s1 => s1
  | Except.error _ => s

/-- An operation on the shared engine, used to quantify over what other
consumers may do between two invocations of interest. -/
inductive EngineOp
  | getCtx (ok : Bool)
  | tap (ok : Bool) (src : MediaSource)
  | resume (ok : Bool)
deriving DecidableEq, Repr

/-- State transition of a single engine operation (the returned value is
discarded; a thrown error leaves the state unchanged). -/
def stepOp (op : EngineOp) (s : EngineState) : EngineState :=
  match op with
  | EngineOp.getCtx ok =>
      match getContext ok s with
      | Except.ok (_, s1) => s1
      | Except.error _ => s
  | EngineOp.tap ok src =>
      match getOrCreateSourceNode ok src s with
      | Except.ok (_, s1) => s1
      | Except.error _ => s
  | EngineOp.resume ok => tickResume ok s

/-- Run a list of engine operations in order. -/
def runOps (ops : List EngineOp) (s : EngineState) : EngineState :=
  match ops with
  | [] => s
  | op :: rest => runOps rest (stepOp op s)

/-- Connect a node to another (AudioNode.connect): adds a directed edge. -/
def connectNodes (a b : Nat) (g : List (Nat × Nat)) : List (Nat × Nat) :=
  (a, b) :: g

/-- AudioNode.disconnect(destination): removes every connection from `a`
to `b`, leaving all other connections alone. -/
def disconnectPair (a b : Nat) (g : List (Nat × Nat)) : List (Nat × Nat) :=
  g.filter (fun edge => !(edge.1 == a && edge.2 == b))

/-- AudioNode.disconnect() with no argument: removes every outgoing
connection of `a`. -/
def disconnectAll (a : Nat) (g : List (Nat × Nat)) : List (Nat × Nat) :=
  g.filter (fun edge => edge.1 != a)

/-- The WaveformVisualizer connection-effect cleanup
(src/unnamed/part_002 lines 58-66): `sourceNode.disconnect(analyser)`
followed by `analyser.disconnect()`. -/
def disposeSession (tap analyser : Nat) (g : List (Nat × Nat)) : List (Nat × Nat) :=
  disconnectAll analyser (disconnectPair tap analyser g)

/-- The WaveformVisualizer connection effect (src/unnamed/part_002 lines
38-56): create an analyser (a fresh node), obtain the tap from the engine,
and connect tap to analyser.  Returns (analyser id, tap id, new state).
In the source the analyser is created before the tap is acquired. -/
def openSession (ok : Bool) (src : MediaSource) (s : EngineState) :
    Except Unit (Nat × Nat × EngineState) :=
  match getContext ok s with
  | Except.error e => Except.error e
  | Except.ok (_, s1) =>
    let analyser := s1.nextId
    let s2 : EngineState := { s1 with nextId := s1.nextId + 1 }
    match getOrCreateSourceNode ok src s2 with
    | Except.error e => Except.error e
    | Except.ok (tapNode, s3) =>
        Except.ok (analyser, tapNode, { s3 with graph := connectNodes tapNode analyser s3.graph })

/-- A fixed-length byte buffer (Uint8Array) with an allocation identity,
so that reuse of the same backing storage is expressible. -/
structure SampleBuffer where
  allocId : Nat
  data : List Nat
deriving DecidableEq, Repr

/-- Length of the buffer (Uint8Array.length). -/
def SampleBuffer.size (b : SampleBuffer) : Nat := b.data.length

/-- AnalyserNode.frequencyBinCount: half the fftSize. -/
def frequencyBinCount (fftSize : Nat) : Nat := fftSize / 2

/-- The pair of per-session sample buffers. -/
structure SessionBuffers where
  timeData : SampleBuffer
  freqData : SampleBuffer
deriving DecidableEq, Repr

/-- Buffer allocation at session construction: `new
Uint8Array(analyser.frequencyBinCount)` twice (src/unnamed/part_002 lines
50-51 with fftSize 512; src/unnamed/part_003 RawMonitor lines 85-87 with
fftSize 256 allocate one the same way).  `base` and `base + 1` are the
fresh allocation identities. -/
def mkSessionBuffers (fftSize base : Nat) : SessionBuffers :=
  { timeData := { allocId := base, data := List.replicate (frequencyBinCount fftSize) 0 }
    freqData := { allocId := base + 1, data := List.replicate (frequencyBinCount fftSize) 0 } }

/-- One render tick's buffer refill: getByteTimeDomainData /
getByteFrequencyData overwrite the buffer contents in place
(src/unnamed/part_002 lines 90-91) — the allocation identity and the
length are untouched, only contents change.  `ft i` / `ff i` are the
fresh analyzer samples for bin i. -/
def tickFill (ft ff : Nat → Nat) (b : SessionBuffers) : SessionBuffers :=
  { timeData := { b.timeData with data := (List.range b.timeData.data.length).map ft }
    freqData := { b.freqData with data := (List.range b.freqData.data.length).map ff } }

/-- Iterate `n` render ticks over the session buffers, with per-tick
sample streams `ft n i` / `ff n i`. -/
def ticksFill (ft ff : Nat → Nat → Nat) : Nat → SessionBuffers → SessionBuffers
  | 0, b => b
  | n + 1, b => ticksFill ft ff n (tickFill (ft n) (ff n) b)

/-- A source crop rectangle as passed to drawImage. -/
structure CropRect where
  sx : ℚ
  sy : ℚ
  sw : ℚ
  sh : ℚ
deriving DecidableEq, Repr

/-- The video-background crop computation (src/unnamed/part_002 lines
105-117): with vAspect = vW/vH and cAspect = W/H, if vAspect > cAspect
take sH = vH, sW = vH * cAspect, sx = (vW - sW)/2, sy = 0; otherwise
sW = vW, sH = vW / cAspect, sx = 0, sy = (vH - sH)/2. -/
def computeVideoCrop (vW vH w h : ℚ) : CropRect :=
  let vAspect := vW / vH
  let cAspect := w / h
  if vAspect > cAspect then
    { sx := (vW - vH * cAspect) / 2, sy := 0, sw := vH * cAspect, sh := vH }
  else
    { sx := 0, sy := (vH - vW / cAspect) / 2, sw := vW, sh := vW / cAspect }

/-- The full video compositing step (src/unnamed/part_002 lines 104-121):
crop rectangle, destination rectangle (0, 0, W, H) covering the whole
surface, then a translucent dark overlay `rgba(2, 6, 23, 0.45)` filled
over (0, 0, W, H). -/
structure VideoComposite where
  crop : CropRect
  dx : ℚ
  dy : ℚ
  dw : ℚ
  dh : ℚ
  overlayAlpha : ℚ
  overlayX : ℚ
  overlayY : ℚ
  overlayW : ℚ
  overlayH : ℚ
deriving DecidableEq, Repr

/-- Build the compositing step the draw routine performs when the source
is a video element with readyState ≥ 2. -/
def videoCompositeStep (vW vH w h : ℚ) : VideoComposite :=
  { crop := computeVideoCrop vW vH w h
    dx := 0, dy := 0, dw := w, dh := h
    overlayAlpha := 45 / 100
    overlayX := 0, overlayY := 0, overlayW := w, overlayH := h }

/-- State of the render loop of one WaveformVisualizer session
(src/unnamed/part_002 lines 71-204).  `live` models
`analyserRef.current && timeDataRef.current && freqDataRef.current`
being non-null; `scheduled` models `animationFrameRef` holding a pending
(uncancelled) animation-frame handle; `drawCount` counts executed runs of
the draw body past its guard. -/
structure LoopState where
  engine : EngineState
  live : Bool
  scheduled : Bool
  drawCount : Nat
deriving DecidableEq, Repr

/-- One execution of `draw` (src/unnamed/part_002 lines 79-86): bail out
if the refs are gone; otherwise schedule the next tick via
requestAnimationFrame, fire the best-effort resume, pull samples and
paint. -/
def drawStep (resumeOk : Bool) (ls : LoopState) : LoopState :=
  if ls.live then
    { ls with
        scheduled := true
        engine := tickResume resumeOk ls.engine
        drawCount := ls.drawCount + 1 }
  else ls

/-- The render-loop effect body ends with a direct, synchronous `draw()`
call (src/unnamed/part_002 line 200). -/
def startLoop (resumeOk : Bool) (ls : LoopState) : LoopState :=
  drawStep resumeOk ls

/-- The platform fires a scheduled animation-frame tick: it runs `draw`
only if the handle is still pending (cancelAnimationFrame clears it). -/
def fireTick (resumeOk : Bool) (ls : LoopState) : LoopState :=
  if ls.scheduled then drawStep resumeOk { ls with scheduled := false } else ls

/-- The render-loop cleanup (src/unnamed/part_002 lines 202-204):
`cancelAnimationFrame(animationFrameRef.current)`. -/
def disposeLoop (ls : LoopState) : LoopState :=
  { ls with scheduled := false }

/-- Iterate `n` platform ticks. -/
def fireTicks (resumeOk : Bool) : Nat → LoopState → LoopState
  | 0, ls => ls
  | n + 1, ls => fireTicks resumeOk n (fireTick resumeOk ls)

/-- A loop state before the session's loop has started: nothing scheduled,
nothing drawn, refs populated by the connection effect. -/
def initLoop (es : EngineState) : LoopState :=
  { engine := es, live := true, scheduled := false, drawCount := 0 }

/-- Bar height in bars mode (src/unnamed/part_002 line 155):
`(freqData[i] / 255) * height * 0.8 * sensitivity`. -/
def barHeight (h s : ℚ) (freq : Nat) : ℚ :=
  ((freq : ℚ) / 255) * h * (8 / 10) * s

/-- Fill alpha of bar i (src/unnamed/part_002 line 156):
`0.2 + (freqData[i] / 255) * 0.8`. -/
def barAlpha (freq : Nat) : ℚ :=
  2 / 10 + ((freq : ℚ) / 255) * (8 / 10)

/-- The rectangle filled for bar i (src/unnamed/part_002 lines 153-159):
bar width (W/B)*2.5, x advancing by barWidth + 1 per bin, fillRect(x,
height - barHeight, barWidth - 2, barHeight). -/
structure BarRect where
  x : ℚ
  y : ℚ
  w : ℚ
  h : ℚ
deriving DecidableEq, Repr

/-- Geometry of bar i in bars mode, from the draw loop. -/
def barRect (w h s : ℚ) (b : Nat) (freqData : Nat → Nat) (i : Nat) : BarRect :=
  let barWidth := w / (b : ℚ) * (5 / 2)
  let bh := barHeight h s (freqData i)
  { x := (i : ℚ) * (barWidth + 1), y := h - bh, w := barWidth - 2, h := bh }

/-- A JavaScript number as fed to formatTime: NaN, an infinity, or a
finite value (the call sites pass nonnegative playback clocks). -/
inductive JSNum
  | nan
  | posInf
  | negInf
  | val (q : ℚ)
deriving DecidableEq, Repr

/-- String.prototype.padStart(2, "0") on a rendered integer. -/
def pad2 (n : ℤ) : String :=
  let s := toString n
  if s.length < 2 then "0" ++ s else s

/-- JavaScript `%` on the nonnegative finite arguments formatTime uses
(a - n * floor(a / n); for nonnegative a and positive n the truncated
and floored remainders coincide). -/
def jsMod (a n : ℚ) : ℚ := a - n * (⌊a / n⌋ : ℤ)

/-- formatTime (src/App.tsx lines 116-122): NaN and infinite inputs map
to "00:00"; otherwise hours = floor(s/3600), minutes =
floor((s % 3600)/60), seconds = floor(s % 60), rendered as
[HH:]MM:SS with the hours field present only when positive. -/
def formatTime : JSNum → String
  | JSNum.nan => "00:00"
  | JSNum.posInf => "00:00"
  | JSNum.negInf => "00:00"
  | JSNum.val q =>
      let hrs : ℤ := ⌊q / 3600⌋
      let mins : ℤ := ⌊jsMod q 3600 / 60⌋
      let secs : ℤ := ⌊jsMod q 60⌋
      (if hrs > 0 then pad2 hrs ++ ":" else "") ++ pad2 mins ++ ":" ++ pad2 secs

/-- The bin stride in particles mode (src/unnamed/part_002 lines 181-182):
`Math.floor(bufferLength / count)` with count = 48. -/
def particleStep (b : Nat) : Nat := b / 48

/-- The bin index read for particle i (src/unnamed/part_002 line 184):
`index = i * step`. -/
def particleIndex (b i : Nat) : Nat := i * particleStep b

section GraphLemmas

/-- Unfolding of lookup over a cons cell of the node Map. -/
theorem lookupNode_cons (k v e : Nat) (m : List (Nat × Nat)) :
    lookupNode ((k, v) :: m) e = if k = e then some v else lookupNode m e := rfl

/-- Membership after the cleanup: an edge survives disposeSession exactly
when it is neither the tap-to-analyser edge nor an outgoing edge of the
analyser. -/
theorem mem_disposeSession {tap analyser x y : Nat} {g : List (Nat × Nat)} :
    (x, y) ∈ disposeSession tap analyser g ↔
      (x, y) ∈ g ∧ ¬(x = tap ∧ y = analyser) ∧ x ≠ analyser := by
  simp only [disposeSession, disconnectAll, disconnectPair, List.mem_filter,
    Bool.not_eq_true', Bool.and_eq_false_iff, beq_iff_eq, beq_eq_false_iff_ne,
    bne_iff_ne, ne_eq]
  tauto

end GraphLemmas

/-- C2.  Disposing an Analysis Session removes only its own analyzer's
edges from the graph: the tap-to-destination connection and any other
session's tap-to-analyzer connection are untouched, the disposed
analyzer's own feed is removed, nothing outside the original graph
appears, and in the concrete two-sessions-on-one-element run the second
session keeps receiving data after the first is disposed. -/
theorem claim_C2_dispose_preserves_shared_tap
    (g : List (Nat × Nat)) (tap analyser d a2 : Nat)
    (hd : d ≠ analyser) (ha : a2 ≠ analyser) (ht : tap ≠ analyser) :
    ((tap, d) ∈ g → (tap, d) ∈ disposeSession tap analyser g) ∧
    ((tap, a2) ∈ g → (tap, a2) ∈ disposeSession tap analyser g) ∧
    ((tap, analyser) ∉ disposeSession tap analyser g) ∧
    (∀ x y, (x, y) ∈ disposeSession tap analyser g → (x, y) ∈ g) ∧
    (openSession true (MediaSource.element 7) ⟨none, [], [], 0⟩ =
        Except.ok (1, 2, ⟨some (0, CtxLife.suspended), [(7, 2)], [(2, 1), (2, 0)], 3⟩) ∧
      openSession true (MediaSource.element 7)
          ⟨some (0, CtxLife.suspended), [(7, 2)], [(2, 1), (2, 0)], 3⟩ =
        Except.ok (3, 2, ⟨some (0, CtxLife.suspended), [(7, 2)], [(2, 3), (2, 1), (2, 0)], 4⟩) ∧
      disposeSession 2 1 [(2, 3), (2, 1), (2, 0)] = [(2, 3), (2, 0)]) := by
  refine ⟨?_, ?_, ?_, ?_, rfl, rfl, rfl⟩
  · intro hm
    exact mem_disposeSession.mpr ⟨hm, fun h => hd h.2, ht⟩
  · intro hm
    exact mem_disposeSession.mpr ⟨hm, fun h => ha h.2, ht⟩
  · intro hm
    exact (mem_disposeSession.mp hm).2.1 ⟨rfl, rfl⟩
  · intro x y hm
    exact (mem_disposeSession.mp hm).1

/-- Witness for C2 at a concrete graph: tap 2 feeds destination 0,
disposed analyser 1 and live analyser 3; both surviving edges are
preserved. -/
theorem claim_C2_witness :
    (2, 0) ∈ disposeSession 2 1 [(2, 3), (2, 1), (2, 0)] ∧
    (2, 3) ∈ disposeSession 2 1 [(2, 3), (2, 1), (2, 0)] := by
  have h := claim_C2_dispose_preserves_shared_tap [(2, 3), (2, 1), (2, 0)] 2 1 0 3
    (by decide) (by decide) (by decide)
  exact ⟨h.1 (by decide), h.2.1 (by decide)⟩

section BufferLemmas

/-- One tick's refill keeps both allocation identities and both lengths. -/
theorem tickFill_preserves (ft ff : Nat → Nat) (b : SessionBuffers) :
    (tickFill ft ff b).timeData.allocId = b.timeData.allocId ∧
    (tickFill ft ff b).freqData.allocId = b.freqData.allocId ∧
    (tickFill ft ff b).timeData.size = b.timeData.size ∧
    (tickFill ft ff b).freqData.size = b.freqData.size := by
  simp [tickFill, SampleBuffer.size]

end BufferLemmas

/-- C3.  Session buffers are allocated with length exactly half the
configured transform size — 256 for the main visualizer's fftSize 512 and
128 for the auxiliary monitor's fftSize 256 — and across any number of
render ticks the same backing buffers are reused: allocation identities
and lengths never change, only contents. -/
theorem claim_C3_buffer_half_fft_and_reuse :
    (∀ fftSize base : Nat,
      (mkSessionBuffers fftSize base).timeData.size = fftSize / 2 ∧
      (mkSessionBuffers fftSize base).freqData.size = fftSize / 2) ∧
    (∀ base : Nat,
      (mkSessionBuffers 512 base).timeData.size = 256 ∧
      (mkSessionBuffers 512 base).freqData.size = 256 ∧
      (mkSessionBuffers 256 base).timeData.size = 128 ∧
      (mkSessionBuffers 256 base).freqData.size = 128) ∧
    (∀ (ft ff : Nat → Nat → Nat) (n : Nat) (b : SessionBuffers),
      (ticksFill ft ff n b).timeData.allocId = b.timeData.allocId ∧
      (ticksFill ft ff n b).freqData.allocId = b.freqData.allocId ∧
      (ticksFill ft ff n b).timeData.size = b.timeData.size ∧
      (ticksFill ft ff n b).freqData.size = b.freqData.size) := by
  refine ⟨?_, ?_, ?_⟩
  · intro fftSize base
    simp [mkSessionBuffers, SampleBuffer.size, frequencyBinCount, List.length_replicate]
  · intro base
    simp only [mkSessionBuffers, SampleBuffer.size, frequencyBinCount, List.length_replicate]
    norm_num
  · intro ft ff n
    induction n with
    | zero => intro b; simp [ticksFill]
    | succ k ih =>
        intro b
        have hstep := tickFill_preserves (ft k) (ff k) b
        have hrec := ih (tickFill (ft k) (ff k) b)
        exact ⟨hrec.1.trans hstep.1, hrec.2.1.trans hstep.2.1,
          hrec.2.2.1.trans hstep.2.2.1, hrec.2.2.2.trans hstep.2.2.2⟩

/-- C7.  In bars mode the bar height is (freqSample[i]/255) * H * 0.8 * s:
an all-zero frequency buffer gives every bar height 0, an all-255 buffer
gives every bar height 0.8 * s * H, each bar is bottom-anchored (its top
edge plus its height lands exactly on the bottom of the surface), and the
fill alpha is 0.2 + 0.8 * (freqSample[i]/255). -/
theorem claim_C7_bars_mode (w h s : ℚ) (b : Nat) (freqData : Nat → Nat) (i : Nat) :
    (barRect w h s b (fun _ => 0) i).h = 0 ∧
    (barRect w h s b (fun _ => 255) i).h = (8 / 10) * s * h ∧
    (barRect w h s b freqData i).h = ((freqData i : ℚ) / 255) * h * (8 / 10) * s ∧
    (barRect w h s b freqData i).y + (barRect w h s b freqData i).h = h ∧
    barAlpha (freqData i) = 2 / 10 + ((freqData i : ℚ) / 255) * (8 / 10) := by
  refine ⟨?_, ?_, rfl, ?_, rfl⟩
  · simp [barRect, barHeight]
  · simp only [barRect, barHeight]
    push_cast
    ring
  · simp only [barRect, barHeight]
    ring

/-- C4 counterexample.  With a 200x100 video on a 100x100 surface the
source aspect (2) exceeds the surface aspect (1), yet the computed crop
keeps the full source height (sh = vH = 100, not cropped) and instead
crops the source width (sw = 100 < 200) — the opposite of the claimed
crop direction. -/
theorem claim_C4_counterexample :
    (200 : ℚ) / 100 > (100 : ℚ) / 100 ∧
    (videoCompositeStep 200 100 100 100).crop.sh = 100 ∧
    ¬(videoCompositeStep 200 100 100 100).crop.sh < 100 ∧
    (videoCompositeStep 200 100 100 100).crop.sw = 100 ∧
    (videoCompositeStep 200 100 100 100).crop.sw < 200 := by
  norm_num [videoCompositeStep, computeVideoCrop]

/-- C4 amended.  The compositor computes a centered, aspect-preserving
source crop: when the source aspect exceeds the surface aspect the source
WIDTH is cropped (full height kept); otherwise the source HEIGHT is
cropped (full width kept, strictly when the aspects differ); the cropped
frame is drawn over the full surface and a translucent dark overlay with
alpha 0.45 covers the full surface. -/
theorem claim_C4_video_crop_amended (vW vH w h : ℚ)
    (hvH : 0 < vH) (hw : 0 < w) (hh : 0 < h) :
    ((videoCompositeStep vW vH w h).crop = computeVideoCrop vW vH w h ∧
      (videoCompositeStep vW vH w h).dx = 0 ∧
      (videoCompositeStep vW vH w h).dy = 0 ∧
      (videoCompositeStep vW vH w h).dw = w ∧
      (videoCompositeStep vW vH w h).dh = h ∧
      (videoCompositeStep vW vH w h).overlayAlpha = 45 / 100 ∧
      (videoCompositeStep vW vH w h).overlayX = 0 ∧
      (videoCompositeStep vW vH w h).overlayY = 0 ∧
      (videoCompositeStep vW vH w h).overlayW = w ∧
      (videoCompositeStep vW vH w h).overlayH = h) ∧
    (vW / vH > w / h →
      (computeVideoCrop vW vH w h).sh = vH ∧
      (computeVideoCrop vW vH w h).sw < vW ∧
      (computeVideoCrop vW vH w h).sy = 0 ∧
      (computeVideoCrop vW vH w h).sx = (vW - (computeVideoCrop vW vH w h).sw) / 2) ∧
    (vW / vH ≤ w / h →
      (computeVideoCrop vW vH w h).sw = vW ∧
      (computeVideoCrop vW vH w h).sh ≤ vH ∧
      (computeVideoCrop vW vH w h).sx = 0 ∧
      (computeVideoCrop vW vH w h).sy = (vH - (computeVideoCrop vW vH w h).sh) / 2 ∧
      (vW / vH < w / h → (computeVideoCrop vW vH w h).sh < vH)) := by
  refine ⟨⟨rfl, rfl, rfl, rfl, rfl, rfl, rfl, rfl, rfl, rfl⟩, ?_, ?_⟩
  · intro hgt
    have hcrop : computeVideoCrop vW vH w h =
        { sx := (vW - vH * (w / h)) / 2, sy := 0, sw := vH * (w / h), sh := vH } := by
      simp only [computeVideoCrop]
      rw [if_pos hgt]
    rw [hcrop]
    refine ⟨rfl, ?_, rfl, rfl⟩
    have h2 : vH * (w / h) < vH * (vW / vH) := mul_lt_mul_of_pos_left hgt hvH
    have h3 : vH * (vW / vH) = vW := by
      rw [mul_comm]
      exact div_mul_cancel₀ vW (ne_of_gt hvH)
    linarith
  · intro hle
    have hcrop : computeVideoCrop vW vH w h =
        { sx := 0, sy := (vH - vW / (w / h)) / 2, sw := vW, sh := vW / (w / h) } := by
      simp only [computeVideoCrop]
      rw [if_neg (not_lt.mpr hle)]
    rw [hcrop]
    have hq : 0 < w / h := div_pos hw hh
    refine ⟨rfl, ?_, rfl, rfl, ?_⟩
    · rw [div_le_iff₀ hq]
      calc vW ≤ w / h * vH := (div_le_iff₀ hvH).mp hle
        _ = vH * (w / h) := mul_comm _ _
    · intro hlt
      rw [div_lt_iff₀ hq]
      calc vW < w / h * vH := (div_lt_iff₀ hvH).mp hlt
        _ = vH * (w / h) := mul_comm _ _

/-- Witness for the amended C4 at concrete inputs: a 200x100 source on a
100x100 surface is width-cropped, and a 100x200 source on the same
surface is height-cropped. -/
theorem claim_C4_witness :
    ((0 : ℚ) < 100 ∧ (200 : ℚ) / 100 > (100 : ℚ) / 100 ∧
      (computeVideoCrop 200 100 100 100).sh = 100 ∧
      (computeVideoCrop 200 100 100 100).sw < 200) ∧
    ((100 : ℚ) / 200 ≤ (100 : ℚ) / 100 ∧
      (computeVideoCrop 100 200 100 100).sw = 100 ∧
      (computeVideoCrop 100 200 100 100).sh ≤ 200) := by
  constructor
  · refine ⟨by norm_num, by norm_num, ?_⟩
    have h := (claim_C4_video_crop_amended 200 100 100 100 (by norm_num) (by norm_num)
      (by norm_num)).2.1 (by norm_num)
    exact ⟨h.1, h.2.1⟩
  · refine ⟨by norm_num, ?_⟩
    have h := (claim_C4_video_crop_amended 100 200 100 100 (by norm_num) (by norm_num)
      (by norm_num)).2.2 (by norm_num)
    exact ⟨h.1, h.2.1⟩

/-- C5 counterexample.  Starting the render loop executes one draw call
synchronously before any tick is scheduled; disposing the session before
the first scheduled tick fires therefore leaves one executed draw call,
not zero. -/
theorem claim_C5_counterexample :
    (disposeLoop (startLoop true (initLoop ⟨none, [], [], 0⟩))).drawCount = 1 ∧
    (disposeLoop (startLoop true (initLoop ⟨none, [], [], 0⟩))).drawCount ≠ 0 := by
  decide

/-- C5 amended.  Cancelling the session before its first scheduled tick
fires leaves exactly the one draw call the render effect made by invoking
draw synchronously at loop start; disposal (cancelAnimationFrame)
prevents the scheduled tick callback from ever running again, so no
further draw executes no matter how many platform ticks elapse. -/
theorem claim_C5_dispose_before_first_tick_amended (es : EngineState) (ok : Bool) :
    (disposeLoop (startLoop ok (initLoop es))).drawCount = 1 ∧
    (∀ ok2 n, (fireTicks ok2 n (disposeLoop (startLoop ok (initLoop es)))).drawCount = 1) ∧
    (∀ (ls : LoopState) (ok2 : Bool), fireTick ok2 (disposeLoop ls) = disposeLoop ls) := by
  have hstill : ∀ (ok2 : Bool) (n : Nat) (ls : LoopState), ls.scheduled = false →
      fireTicks ok2 n ls = ls := by
    intro ok2 n
    induction n with
    | zero => intro ls _; rfl
    | succ k ih =>
        intro ls hls
        have hfix : fireTick ok2 ls = ls := by
          simp [fireTick, hls]
        rw [fireTicks, hfix]
        exact ih ls hls
  refine ⟨?_, ?_, ?_⟩
  · simp [disposeLoop, startLoop, drawStep, initLoop]
  · intro ok2 n
    rw [hstill ok2 n _ rfl]
    simp [disposeLoop, startLoop, drawStep, initLoop]
  · intro ls ok2
    simp [fireTick, disposeLoop]

/-- C9.  formatTime maps 0 seconds to "00:00", 65 seconds to "01:05",
3661 seconds to "01:01:01", and NaN or infinite input to "00:00". -/
theorem claim_C9_formatTime :
    formatTime (JSNum.val 0) = "00:00" ∧
    formatTime (JSNum.val 65) = "01:05" ∧
    formatTime (JSNum.val 3661) = "01:01:01" ∧
    formatTime JSNum.nan = "00:00" ∧
    formatTime JSNum.posInf = "00:00" ∧
    formatTime JSNum.negInf = "00:00" := by
  refine ⟨?_, ?_, ?_, rfl, rfl, rfl⟩
  · norm_num [formatTime, jsMod, pad2]
    decide
  · norm_num [formatTime, jsMod, pad2]
    decide
  · norm_num [formatTime, jsMod, pad2]
    decide

/-- C10.  In particles mode every sampled bin index i * floor(B/48) with
i < 48 stays strictly below B: concretely for B = 256 (so all
time-domain and frequency-domain reads of the main session's buffers are
in bounds), and generally for every B at least 48. -/
theorem claim_C10_particle_index_bounds :
    (∀ i, i < 48 → particleIndex 256 i < 256) ∧
    (∀ base i, i < 48 →
      particleIndex 256 i < (mkSessionBuffers 512 base).timeData.size ∧
      particleIndex 256 i < (mkSessionBuffers 512 base).freqData.size) ∧
    (∀ b i, 48 ≤ b → i < 48 → particleIndex b i < b) := by
  have key : ∀ b i, 48 ≤ b → i < 48 → particleIndex b i < b := by
    intro b i hb hi
    have h1 : i * (b / 48) ≤ 47 * (b / 48) :=
      Nat.mul_le_mul_right _ (by omega)
    have h2 : 48 * (b / 48) ≤ b := by omega
    have h3 : 0 < b / 48 := Nat.div_pos hb (by norm_num)
    calc particleIndex b i = i * particleStep b := rfl
      _ = i * (b / 48) := rfl
      _ ≤ 47 * (b / 48) := h1
      _ < b := by omega
  refine ⟨fun i hi => key 256 i (by norm_num) hi, ?_, key⟩
  intro base i hi
  have hs : (mkSessionBuffers 512 base).timeData.size = 256 := by
    simp only [mkSessionBuffers, SampleBuffer.size, frequencyBinCount, List.length_replicate]
  have hf : (mkSessionBuffers 512 base).freqData.size = 256 := by
    simp only [mkSessionBuffers, SampleBuffer.size, frequencyBinCount, List.length_replicate]
  rw [hs, hf]
  exact ⟨key 256 i (by norm_num) hi, key 256 i (by norm_num) hi⟩

/-- Witness for C10: the last particle (i = 47) reads bin 235 < 256, and
for B = 300 it reads bin 282 < 300. -/
theorem claim_C10_witness :
    particleIndex 256 47 < 256 ∧ particleIndex 300 47 < 300 :=
  ⟨claim_C10_particle_index_bounds.1 47 (by decide),
   claim_C10_particle_index_bounds.2.2 300 47 (by decide) (by decide)⟩

section EngineLemmas

/-- A successful getContext never touches the node cache and never lowers
the fresh-identity counter. -/
theorem getContext_state {ok : Bool} {s : EngineState} {c : Nat} {s1 : EngineState}
    (h : getContext ok s = Except.ok (c, s1)) :
    s1.sourceNodes = s.sourceNodes ∧ s.nextId ≤ s1.nextId := by
  unfold getContext at h
  rcases hctx : s.context with _ | ⟨c2, life⟩ <;> rw [hctx] at h <;> dsimp only at h
  · cases ok with
    | false => simp at h
    | true =>
        rw [if_pos rfl] at h
        simp only [Except.ok.injEq, Prod.mk.injEq] at h
        obtain ⟨h1, h2⟩ := h
        subst h2
        exact ⟨rfl, Nat.le_succ _⟩
  · by_cases hlife : life = CtxLife.closed
    · rw [if_pos hlife] at h
      cases ok with
      | false => simp at h
      | true =>
          rw [if_pos rfl] at h
          simp only [Except.ok.injEq, Prod.mk.injEq] at h
          obtain ⟨h1, h2⟩ := h
          subst h2
          exact ⟨rfl, Nat.le_succ _⟩
    · rw [if_neg hlife] at h
      simp only [Except.ok.injEq, Prod.mk.injEq] at h
      obtain ⟨h1, h2⟩ := h
      subst h2
      exact ⟨rfl, Nat.le_refl _⟩

/-- A successful tap acquisition preserves every existing cache binding. -/
theorem tap_preserves_lookup {ok : Bool} {src : MediaSource} {s : EngineState}
    {n : Nat} {s2 : EngineState}
    (h : getOrCreateSourceNode ok src s = Except.ok (n, s2))
    (e m : Nat) (hm : lookupNode s.sourceNodes e = some m) :
    lookupNode s2.sourceNodes e = some m := by
  unfold getOrCreateSourceNode at h
  cases hg : getContext ok s with
  | error err => rw [hg] at h; simp at h
  | ok p =>
      obtain ⟨c, s1⟩ := p
      rw [hg] at h
      dsimp only at h
      have hsn : s1.sourceNodes = s.sourceNodes := (getContext_state hg).1
      cases src with
      | stream sid =>
          dsimp only at h
          simp only [Except.ok.injEq, Prod.mk.injEq] at h
          obtain ⟨h1, h2⟩ := h
          subst h2
          simpa [hsn] using hm
      | element e2 =>
          dsimp only at h
          cases hl : lookupNode s1.sourceNodes e2 with
          | some n2 =>
              rw [hl] at h
              simp only [Except.ok.injEq, Prod.mk.injEq] at h
              obtain ⟨h1, h2⟩ := h
              subst h2
              simpa [hsn] using hm
          | none =>
              rw [hl] at h
              simp only [Except.ok.injEq, Prod.mk.injEq] at h
              obtain ⟨h1, h2⟩ := h
              subst h2
              have hne : e2 ≠ e := by
                intro he
                rw [he, hsn, hm] at hl
                exact Option.noConfusion hl
              show lookupNode ((e2, s1.nextId) :: s1.sourceNodes) e = some m
              rw [lookupNode_cons, if_neg hne, hsn]
              exact hm

/-- A successful tap acquisition never lowers the fresh-identity
counter. -/
theorem tap_nextId_le {ok : Bool} {src : MediaSource} {s : EngineState}
    {n : Nat} {s2 : EngineState}
    (h : getOrCreateSourceNode ok src s = Except.ok (n, s2)) :
    s.nextId ≤ s2.nextId := by
  unfold getOrCreateSourceNode at h
  cases hg : getContext ok s with
  | error err => rw [hg] at h; simp at h
  | ok p =>
      obtain ⟨c, s1⟩ := p
      rw [hg] at h
      dsimp only at h
      have hle : s.nextId ≤ s1.nextId := (getContext_state hg).2
      cases src with
      | stream sid =>
          dsimp only at h
          simp only [Except.ok.injEq, Prod.mk.injEq] at h
          obtain ⟨h1, h2⟩ := h
          subst h2
          exact hle.trans (Nat.le_succ _)
      | element e2 =>
          dsimp only at h
          cases hl : lookupNode s1.sourceNodes e2 with
          | some n2 =>
              rw [hl] at h
              simp only [Except.ok.injEq, Prod.mk.injEq] at h
              obtain ⟨h1, h2⟩ := h
              subst h2
              exact hle
          | none =>
              rw [hl] at h
              simp only [Except.ok.injEq, Prod.mk.injEq] at h
              obtain ⟨h1, h2⟩ := h
              subst h2
              exact hle.trans (Nat.le_succ _)

/-- After a successful element tap acquisition the cache binds the element
to the returned node. -/
theorem tap_element_lookup {ok : Bool} {e : Nat} {s : EngineState}
    {n : Nat} {s2 : EngineState}
    (h : getOrCreateSourceNode ok (MediaSource.element e) s = Except.ok (n, s2)) :
    lookupNode s2.sourceNodes e = some n := by
  unfold getOrCreateSourceNode at h
  cases hg : getContext ok s with
  | error err => rw [hg] at h; simp at h
  | ok p =>
      obtain ⟨c, s1⟩ := p
      rw [hg] at h
      dsimp only at h
      cases hl : lookupNode s1.sourceNodes e with
      | some n2 =>
          rw [hl] at h
          simp only [Except.ok.injEq, Prod.mk.injEq] at h
          obtain ⟨h1, h2⟩ := h
          subst h2
          rw [hl, h1]
      | none =>
          rw [hl] at h
          simp only [Except.ok.injEq, Prod.mk.injEq] at h
          obtain ⟨h1, h2⟩ := h
          subst h2
          show lookupNode ((e, s1.nextId) :: s1.sourceNodes) e = some n
          rw [lookupNode_cons, if_pos rfl, h1]

/-- A tap acquisition on an element already in the cache returns the
cached node. -/
theorem tap_element_cached {ok : Bool} {e : Nat} {s : EngineState}
    {n m : Nat} {s2 : EngineState}
    (hm : lookupNode s.sourceNodes e = some m)
    (h : getOrCreateSourceNode ok (MediaSource.element e) s = Except.ok (n, s2)) :
    n = m := by
  unfold getOrCreateSourceNode at h
  cases hg : getContext ok s with
  | error err => rw [hg] at h; simp at h
  | ok p =>
      obtain ⟨c, s1⟩ := p
      rw [hg] at h
      dsimp only at h
      have hsn : s1.sourceNodes = s.sourceNodes := (getContext_state hg).1
      have hl : lookupNode s1.sourceNodes e = some m := by rw [hsn]; exact hm
      rw [hl] at h
      simp only [Except.ok.injEq, Prod.mk.injEq] at h
      exact h.1.symm

/-- A stream tap acquisition returns a node at or above the current
fresh-identity counter and strictly below the new one. -/
theorem tap_stream_fresh {ok : Bool} {sid : Nat} {s : EngineState}
    {n : Nat} {s2 : EngineState}
    (h : getOrCreateSourceNode ok (MediaSource.stream sid) s = Except.ok (n, s2)) :
    s.nextId ≤ n ∧ n < s2.nextId := by
  unfold getOrCreateSourceNode at h
  cases hg : getContext ok s with
  | error err => rw [hg] at h; simp at h
  | ok p =>
      obtain ⟨c, s1⟩ := p
      rw [hg] at h
      dsimp only at h
      simp only [Except.ok.injEq, Prod.mk.injEq] at h
      obtain ⟨h1, h2⟩ := h
      subst h2
      subst h1
      exact ⟨(getContext_state hg).2, Nat.lt_succ_self _⟩

/-- The per-tick resume never touches the node cache or the identity
counter. -/
theorem tickResume_fields (ok : Bool) (s : EngineState) :
    (tickResume ok s).sourceNodes = s.sourceNodes ∧ (tickResume ok s).nextId = s.nextId := by
  unfold tickResume engineResume
  rcases hctx : s.context with _ | ⟨c, life⟩
  · simp [hctx]
  · cases life <;> cases ok <;> simp [hctx]

/-- Any single engine operation preserves existing cache bindings and
never lowers the identity counter. -/
theorem stepOp_state (op : EngineOp) (s : EngineState) :
    s.nextId ≤ (stepOp op s).nextId ∧
    ∀ e m, lookupNode s.sourceNodes e = some m →
      lookupNode (stepOp op s).sourceNodes e = some m := by
  cases op with
  | getCtx ok =>
      simp only [stepOp]
      cases hg : getContext ok s with
      | error err => exact ⟨Nat.le_refl _, fun e m hm => hm⟩
      | ok p =>
          obtain ⟨c, s1⟩ := p
          exact ⟨(getContext_state hg).2, fun e m hm => (getContext_state hg).1 ▸ hm⟩
  | tap ok src =>
      simp only [stepOp]
      cases hg : getOrCreateSourceNode ok src s with
      | error err => exact ⟨Nat.le_refl _, fun e m hm => hm⟩
      | ok p =>
          obtain ⟨n, s1⟩ := p
          exact ⟨tap_nextId_le hg, fun e m hm => tap_preserves_lookup hg e m hm⟩
  | resume ok =>
      simp only [stepOp]
      exact ⟨le_of_eq (tickResume_fields ok s).2.symm,
        fun e m hm => (tickResume_fields ok s).1 ▸ hm⟩

/-- Any sequence of engine operations preserves existing cache bindings
and never lowers the identity counter. -/
theorem runOps_state (ops : List EngineOp) (s : EngineState) :
    s.nextId ≤ (runOps ops s).nextId ∧
    ∀ e m, lookupNode s.sourceNodes e = some m →
      lookupNode (runOps ops s).sourceNodes e = some m := by
  induction ops generalizing s with
  | nil => exact ⟨Nat.le_refl _, fun e m hm => hm⟩
  | cons op rest ih =>
      have hstep := stepOp_state op s
      have hrec := ih (stepOp op s)
      exact ⟨hstep.1.trans hrec.1,
        fun e m hm => hrec.2 e m (hstep.2 e m hm)⟩

end EngineLemmas

/-- C1.  For a media element, any two successful tap acquisitions with the
same element identity — with any sequence of other engine operations in
between — return the identical node; for capture streams, any two
successful acquisitions return distinct, freshly constructed nodes. -/
theorem claim_C1_tap_identity :
    (∀ (ok1 ok2 : Bool) (e : Nat) (s : EngineState) (n1 : Nat) (s1 : EngineState)
        (ops : List EngineOp) (n2 : Nat) (s2 : EngineState),
      getOrCreateSourceNode ok1 (MediaSource.element e) s = Except.ok (n1, s1) →
      getOrCreateSourceNode ok2 (MediaSource.element e) (runOps ops s1) = Except.ok (n2, s2) →
      n2 = n1) ∧
    (∀ (ok1 ok2 : Bool) (sid1 sid2 : Nat) (s : EngineState) (n1 : Nat) (s1 : EngineState)
        (ops : List EngineOp) (n2 : Nat) (s2 : EngineState),
      getOrCreateSourceNode ok1 (MediaSource.stream sid1) s = Except.ok (n1, s1) →
      getOrCreateSourceNode ok2 (MediaSource.stream sid2) (runOps ops s1) = Except.ok (n2, s2) →
      n2 ≠ n1) := by
  constructor
  · intro ok1 ok2 e s n1 s1 ops n2 s2 h1 h2
    have hl1 : lookupNode s1.sourceNodes e = some n1 := tap_element_lookup h1
    have hl2 : lookupNode (runOps ops s1).sourceNodes e = some n1 :=
      (runOps_state ops s1).2 e n1 hl1
    exact tap_element_cached hl2 h2
  · intro ok1 ok2 sid1 sid2 s n1 s1 ops n2 s2 h1 h2
    have hf1 : n1 < s1.nextId := (tap_stream_fresh h1).2
    have hmono : s1.nextId ≤ (runOps ops s1).nextId := (runOps_state ops s1).1
    have hf2 : (runOps ops s1).nextId ≤ n2 := (tap_stream_fresh h2).1
    omega

/-- Witness for C1: on a fresh engine, tapping element 5 twice returns
node 1 both times, while tapping stream 9 twice returns nodes 1 and 2. -/
theorem claim_C1_witness :
    getOrCreateSourceNode true (MediaSource.element 5) ⟨none, [], [], 0⟩ =
        Except.ok (1, ⟨some (0, CtxLife.suspended), [(5, 1)], [(1, 0)], 2⟩) ∧
    getOrCreateSourceNode true (MediaSource.element 5)
        (runOps [] ⟨some (0, CtxLife.suspended), [(5, 1)], [(1, 0)], 2⟩) =
        Except.ok (1, ⟨some (0, CtxLife.suspended), [(5, 1)], [(1, 0)], 2⟩) ∧
    (1 : Nat) = 1 ∧
    getOrCreateSourceNode true (MediaSource.stream 9) ⟨none, [], [], 0⟩ =
        Except.ok (1, ⟨some (0, CtxLife.suspended), [], [], 2⟩) ∧
    getOrCreateSourceNode true (MediaSource.stream 9)
        (runOps [] ⟨some (0, CtxLife.suspended), [], [], 2⟩) =
        Except.ok (2, ⟨some (0, CtxLife.suspended), [], [], 3⟩) ∧
    (2 : Nat) ≠ 1 :=
  ⟨rfl, rfl, claim_C1_tap_identity.1 true true 5 ⟨none, [], [], 0⟩ 1
      ⟨some (0, CtxLife.suspended), [(5, 1)], [(1, 0)], 2⟩ [] 1
      ⟨some (0, CtxLife.suspended), [(5, 1)], [(1, 0)], 2⟩ rfl rfl,
   rfl, rfl, claim_C1_tap_identity.2 true true 9 9 ⟨none, [], [], 0⟩ 1
      ⟨some (0, CtxLife.suspended), [], [], 2⟩ [] 2
      ⟨some (0, CtxLife.suspended), [], [], 3⟩ rfl rfl⟩

/-- C6.  While the context is suspended the per-tick resume issues a
resumption request and a rejection is swallowed (the tick-level state is
unchanged and no error escapes); once the context is running the resume is
a no-op; and every executed draw tick routes through the per-tick
resume. -/
theorem claim_C6_resume_per_tick (es : EngineState) (c : Nat) (ok : Bool) :
    (es.context = some (c, CtxLife.suspended) →
      resumeRequest es = true ∧
      engineResume true es = Except.ok { es with context := some (c, CtxLife.running) } ∧
      engineResume false es = Except.error () ∧
      tickResume false es = es) ∧
    (es.context = some (c, CtxLife.running) →
      resumeRequest es = false ∧
      engineResume ok es = Except.ok es ∧
      tickResume ok es = es) ∧
    (∀ ls : LoopState, ls.live = true → (drawStep ok ls).engine = tickResume ok ls.engine) := by
  refine ⟨?_, ?_, ?_⟩
  · intro h
    refine ⟨?_, ?_, ?_, ?_⟩ <;> simp [resumeRequest, engineResume, tickResume, h]
  · intro h
    refine ⟨?_, ?_, ?_⟩ <;> simp [resumeRequest, engineResume, tickResume, h]
  · intro ls hl
    simp [drawStep, hl]

/-- Witness for C6 at concrete states: a suspended context requests resume
and survives a failed resume unchanged; a running context requests nothing
and resume is the identity. -/
theorem claim_C6_witness :
    (resumeRequest ⟨some (0, CtxLife.suspended), [], [], 1⟩ = true ∧
      tickResume false ⟨some (0, CtxLife.suspended), [], [], 1⟩ =
        ⟨some (0, CtxLife.suspended), [], [], 1⟩) ∧
    (resumeRequest ⟨some (0, CtxLife.running), [], [], 1⟩ = false ∧
      engineResume true ⟨some (0, CtxLife.running), [], [], 1⟩ =
        Except.ok ⟨some (0, CtxLife.running), [], [], 1⟩) := by
  have h1 := (claim_C6_resume_per_tick ⟨some (0, CtxLife.suspended), [], [], 1⟩ 0 false).1 rfl
  have h2 := (claim_C6_resume_per_tick ⟨some (0, CtxLife.running), [], [], 1⟩ 0 true).2.1 rfl
  exact ⟨⟨h1.1, h1.2.2.2⟩, h2.1, h2.2.1⟩

/-- C8.  getContext constructs the context lazily on first use, returns
the same context and leaves the whole engine state unchanged on every
later call while the context is not closed, constructs a fresh replacement
when the prior context is closed, and propagates a construction failure as
an explicit error. -/
theorem claim_C8_getContext (s : EngineState) :
    (s.context = none →
      getContext true s =
        Except.ok (s.nextId,
          { s with context := some (s.nextId, CtxLife.suspended), nextId := s.nextId + 1 }) ∧
      getContext false s = Except.error ()) ∧
    (∀ c life, s.context = some (c, life) → life ≠ CtxLife.closed →
      ∀ ok, getContext ok s = Except.ok (c, s)) ∧
    (∀ c, s.context = some (c, CtxLife.closed) →
      getContext true s =
        Except.ok (s.nextId,
          { s with context := some (s.nextId, CtxLife.suspended), nextId := s.nextId + 1 }) ∧
      (c < s.nextId → s.nextId ≠ c) ∧
      getContext false s = Except.error ()) := by
  refine ⟨?_, ?_, ?_⟩
  · intro h
    exact ⟨by simp [getContext, h], by simp [getContext, h]⟩
  · intro c life h hne ok
    simp [getContext, h, hne]
  · intro c h
    exact ⟨by simp [getContext, h], fun hlt => by omega, by simp [getContext, h]⟩

/-- Witness for C8 at concrete states: first use constructs context 5,
a live context 3 is returned unchanged, a closed context 3 is replaced by
a fresh context 5, and construction failure surfaces as an error. -/
theorem claim_C8_witness :
    (getContext true ⟨none, [], [], 5⟩ =
        Except.ok (5, ⟨some (5, CtxLife.suspended), [], [], 6⟩) ∧
      getContext false ⟨none, [], [], 5⟩ = Except.error ()) ∧
    getContext true ⟨some (3, CtxLife.running), [], [], 5⟩ =
      Except.ok (3, ⟨some (3, CtxLife.running), [], [], 5⟩) ∧
    (getContext true ⟨some (3, CtxLife.closed), [], [], 5⟩ =
        Except.ok (5, ⟨some (5, CtxLife.suspended), [], [], 6⟩) ∧
      (5 : Nat) ≠ 3) := by
  have h1 := (claim_C8_getContext ⟨none, [], [], 5⟩).1 rfl
  have h2 := (claim_C8_getContext ⟨some (3, CtxLife.running), [], [], 5⟩).2.1 3
    CtxLife.running rfl (by decide) true
  have h3 := (claim_C8_getContext ⟨some (3, CtxLife.closed), [], [], 5⟩).2.2 3 rfl
  exact ⟨h1, h2, h3.1, h3.2.1 (by decide)⟩

end SonicWave
